import Mathlib

/-!
Verification of the notebook serializer
(`src/client/datascience/notebook/notebookSerliazer.ts`).

The serializer converts between persisted notebook JSON ("StoredNotebook")
and the in-memory `NotebookData` document model. Cells and several helpers
(`detectIndent`, `uuid`, the language service, the per-cell converters,
`pruneCell`, `JSON.parse`) are external collaborators of this file: they
are taken as parameters, bundled in a `Collaborators` record, exactly as
the source consumes them. The per-call unique identifier produced by
`uuid()` is modelled as the `uuid` field of the record: one decode call,
one fresh value.

JavaScript values reaching this code are modelled by the `JsonVal`
inductive; JavaScript truthiness, property access, the optional-chaining
reads, and the spread `{ ...json, cells: [] }` are modelled by small
helper functions next to their uses.
-/

namespace VSCJupyter

/-- A parsed JSON / JavaScript value as handled by the serializer. -/
inductive JsonVal where
| null : JsonVal
| bool : Bool → JsonVal
| num : Int → JsonVal
| str : String → JsonVal
| arr : List JsonVal → JsonVal
| obj : List (String × JsonVal) → JsonVal
deriving Repr

/-- JavaScript truthiness of a value (`undefined` is handled by `Option` at
use sites): `null`, `false`, `0` and `""` are falsy; arrays and objects are
always truthy. -/
def JsonVal.truthy : JsonVal → Bool
| .null => false
| .bool b => b
| .num n => n != 0
| .str s => s != ""
| .arr _ => true
| .obj _ => true

/-- Property read `v.k`: a key lookup on objects, `undefined` (`none`) on
every other value. -/
def jsGet (v : JsonVal) (k : String) : Option JsonVal :=
  match v with
  | .obj kvs => List.lookup k kvs
  | _ => none

/-- The `.length` read used by `json?.cells?.length`: defined on arrays and
strings, `undefined` elsewhere. -/
def jsLength : JsonVal → Option Nat
| .arr xs => some xs.length
| .str s => some s.length
| _ => none

/-- Truthiness of a possibly-`undefined` value. -/
def jsTruthyOpt : Option JsonVal → Bool
| some v => v.truthy
| none => false

/-- Set key `k` of an association list to `v`: replaces the first
occurrence in place, appends when absent. This is JavaScript object key
update (and the update part of `{ ...json, cells: [] }`). -/
def setKey : List (String × JsonVal) → String → JsonVal → List (String × JsonVal)
| [], k, v => [(k, v)]
| (k₀, v₀) :: rest, k, v =>
  if k₀ = k then (k, v) :: rest else (k₀, v₀) :: setKey rest k v

/-- Property write `v.k = x` on an object (the only reachable case of the
`json.cells = [...]` assignment; writes on non-objects do not occur on the
paths where the source performs this assignment). -/
def jsSet (v : JsonVal) (k : String) (x : JsonVal) : JsonVal :=
  match v with
  | .obj kvs => .obj (setKey kvs k x)
  | other => other

/-- `json?.cells || []`: the value itself when truthy, else a fresh empty
array (also when `undefined`). -/
def jsOrEmptyArr : Option JsonVal → JsonVal
| some v => if v.truthy then v else .arr []
| none => .arr []

/-- `json || {}`: the value itself when truthy, else an empty object. -/
def jsOrEmptyObj : Option JsonVal → JsonVal
| some v => if v.truthy then v else .obj []
| none => .obj []

/-- `{ ...json, cells: [] }`: spread of `json` with `cells` overridden.
On the paths that reach this expression `json` is `undefined`, an object,
or a falsy primitive (truthy non-objects returned early), and spreading a
falsy primitive or `undefined` contributes no keys. -/
def spreadWithCellsEmptied : Option JsonVal → JsonVal
| some (.obj kvs) => .obj (setKey kvs "cells" (.arr []))
| _ => .obj [("cells", .arr [])]

/-- The in-memory document model handed to / received from VS Code
(`NotebookData`): an ordered cell list (cells of an abstract type `α`,
owned by the external per-cell converters) plus an open metadata map whose
`with` update is modelled by `setKey`. `new NotebookData([])` is
`⟨[], []⟩`. -/
structure NotebookData (α : Type) where
  cells : List α
  metadata : List (String × JsonVal)
deriving Repr

/-- The external collaborators consumed by the serializer, as one record:
`JSON.parse` (`none` models a parse error being thrown), `detect-indent`
(the `.indent` field of its result), the fresh `uuid()` value generated
during the call, the raw telemetry callback (which may fail), the
language service lookup, the whole-document cell converter
`notebookModelToVSCNotebookData`, the per-cell encoder
`createJupyterCellFromVSCNotebookCell` and `pruneCell`. -/
structure Collaborators (α : Type) where
  parseJson : String → Option JsonVal
  detectIndent : String → String
  uuid : String
  telemetry : JsonVal → Except Unit Unit
  getPreferredLanguage : Option JsonVal → String
  notebookModelToVSCNotebookData :
    JsonVal → JsonVal → String → JsonVal → NotebookData α
  createJupyterCellFromVSCNotebookCell : α → JsonVal
  pruneCell : JsonVal → JsonVal

/-- Modelled from the spec: `sendLanguageTelemetry` lives in
`notebookStorage/nativeEditorStorage.ts`, which is not among the provided
sources; per the spec it is "side-effecting, no return value consulted"
and "telemetry failures are swallowed at the call site and never escalate"
— so it invokes the raw callback and swallows any failure. -/
def sendLanguageTelemetry (cb : JsonVal → Except Unit Unit) (j : JsonVal) :
    Except Unit Unit :=
  match cb j with
  | .ok _ => .ok ()
  | .error _ => .ok ()

/-- The blank code cell synthesized when the parsed `cells` array is empty
(source lines 48–56). -/
def blankCell : JsonVal :=
  .obj [("cell_type", .str "code"), ("execution_count", .null),
        ("metadata", .obj []), ("outputs", .arr []), ("source", .str "")]

/-- `const json = contents ? JSON.parse(contents) : undefined;`
(line 29): empty content is never parsed; a parse failure propagates
(the `MalformedInputError` of the spec, modelled as `.error ()`). -/
def decodeJson (c : Collaborators α) (contents : String) :
    Except Unit (Option JsonVal) :=
  if contents = "" then .ok none
  else
    match c.parseJson contents with
    | some j => .ok (some j)
    | none => .error ()

/-- `json && !json.cells` (line 32): the early return that yields
`new NotebookData([])`. -/
def takesShortCircuit (json : Option JsonVal) : Bool :=
  jsTruthyOpt json && ! jsTruthyOpt (json.bind (fun j => jsGet j "cells"))

/-- The body of `deserializeNotebook` past the telemetry call (source
lines 37–72, minus line 41's side effect): indent detection, preferred
language, blank-cell substitution, whole-document conversion, and the
metadata overlays. -/
def decodeMain (c : Collaborators α) (contents : String)
    (json : Option JsonVal) : NotebookData α :=
  let indentAmount := if contents = "" then " " else c.detectIndent contents
  let preferredCellLanguage :=
    c.getPreferredLanguage (json.bind (fun j => jsGet j "metadata"))
  let json :=
    if (json.bind (fun j => jsGet j "cells")).bind jsLength = some 0 then
      json.map (fun j => jsSet j "cells" (.arr [blankCell]))
    else json
  let data := c.notebookModelToVSCNotebookData
    (spreadWithCellsEmptied json)
    (jsOrEmptyArr (json.bind (fun j => jsGet j "cells")))
    preferredCellLanguage
    (jsOrEmptyObj json)
  let md := setKey (setKey data.metadata "indentAmount" (.str indentAmount))
    "__vsc_id" (.str c.uuid)
  let md := match json.bind (fun j => jsGet j "nbformat") with
    | some v => if v.truthy then setKey md "nbformat" v else md
    | none => md
  let md := match json.bind (fun j => jsGet j "nbformat_minor") with
    | some v => if v.truthy then setKey md "nbformat_minor" v else md
    | none => md
  { cells := data.cells, metadata := md }

/-- `deserializeNotebook(content, _token)` (source lines 28–73): parse,
the missing/falsy-`cells` early return, the telemetry call (whose failure,
were it to escape `sendLanguageTelemetry`, would propagate — there is no
`try`/`catch` at the call site), then the main conversion. -/
def decode (c : Collaborators α) (contents : String) :
    Except Unit (NotebookData α) :=
  match decodeJson c contents with
  | .error e => .error e
  | .ok json =>
    if takesShortCircuit json then .ok { cells := [], metadata := [] }
    else
      match (match json with
             | some j => sendLanguageTelemetry c.telemetry j
             | none => .ok ()) with
      | .error e => .error e
      | .ok _ => .ok (decodeMain c contents json)

/-- The JSON object built by `serialize` (source lines 79–106, cell part
specialised to the `NotebookData` branch): default
`{ cells: [], metadata: { orig_nbformat: 4 }, nbformat: 4,
nbformat_minor: 2 }`, then `nbformat` overwritten first by
`data.metadata.nbformat` and then by `data.metadata.nbformat_minor`
whenever those keys are present, and the cells encoded by
`createJupyterCellFromVSCNotebookCell` followed by `pruneCell`. -/
def serializeJson (c : Collaborators α) (data : NotebookData α) : JsonVal :=
  let nb0 : JsonVal := .num 4
  let nb1 : JsonVal :=
    match List.lookup "nbformat" data.metadata with
    | some v => v
    | none => nb0
  let nb2 : JsonVal :=
    match List.lookup "nbformat_minor" data.metadata with
    | some v => v
    | none => nb1
  .obj [("cells", .arr ((data.cells.map
           c.createJupyterCellFromVSCNotebookCell).map c.pruneCell)),
        ("metadata", .obj [("orig_nbformat", .num 4)]),
        ("nbformat", nb2),
        ("nbformat_minor", .num 2)]

/-- The indentation unit resolved by `serialize` (source lines 92–95):
`data.metadata.indentAmount` when present and a string, else one space. -/
def resolveIndent (data : NotebookData α) : String :=
  match List.lookup "indentAmount" data.metadata with
  | some (.str s) => s
  | _ => " "

/-- How many times a string is repeated to indent one pretty-printing
level. -/
def repeatStr (s : String) : Nat → String
| 0 => ""
| n + 1 => repeatStr s n ++ s

/-- Escaping of one character inside a JSON string literal. -/
def escapeJsonChar (ch : Char) : String :=
  if ch = '"' then "\\\""
  else if ch = '\\' then "\\\\"
  else if ch = '\n' then "\\n"
  else if ch = '\t' then "\\t"
  else if ch = '\r' then "\\r"
  else String.singleton ch

/-- Escaping of a JSON string literal body. -/
def escapeJson (s : String) : String :=
  String.join (s.toList.map escapeJsonChar)

mutual

/-- Modelled from the spec: the platform JSON serializer
(`JSON.stringify(value, undefined, indent)`), which is not repository
code; per the spec the object is "pretty-printed with a caller/file-
determined indentation string" — compact when the indent is empty,
multi-line with one indent unit per nesting level otherwise. -/
def strVal (ind : String) (lvl : Nat) : JsonVal → String
| .null => "null"
| .bool b => if b then "true" else "false"
| .num n => toString n
| .str s => "\"" ++ (escapeJson s ++ "\"")
| .arr [] => "[]"
| .arr (x :: xs) =>
  if ind = "" then "[" ++ (strArrC ind lvl (x :: xs) ++ "]")
  else "[" ++ ("\n" ++ (strArrP ind (lvl + 1) (x :: xs) ++
    ("\n" ++ (repeatStr ind lvl ++ "]"))))
| .obj [] => "\x7b\x7d"
| .obj (kv :: kvs) =>
  if ind = "" then "\x7b" ++ (strObjC ind lvl (kv :: kvs) ++ "\x7d")
  else "\x7b" ++ ("\n" ++ (strObjP ind (lvl + 1) (kv :: kvs) ++
    ("\n" ++ (repeatStr ind lvl ++ "\x7d"))))

/-- Array items, compact mode. -/
def strArrC (ind : String) (lvl : Nat) : List JsonVal → String
| [] => ""
| [x] => strVal ind lvl x
| x :: y :: xs => strVal ind lvl x ++ ("," ++ strArrC ind lvl (y :: xs))

/-- Array items, pretty mode, one per line at the given level. -/
def strArrP (ind : String) (lvl : Nat) : List JsonVal → String
| [] => ""
| [x] => repeatStr ind lvl ++ strVal ind lvl x
| x :: y :: xs =>
  repeatStr ind lvl ++ (strVal ind lvl x ++ (",\n" ++ strArrP ind lvl (y :: xs)))

/-- Object entries, compact mode. -/
def strObjC (ind : String) (lvl : Nat) : List (String × JsonVal) → String
| [] => ""
| [(k, v)] => "\"" ++ (escapeJson k ++ ("\":" ++ strVal ind lvl v))
| (k, v) :: kv :: kvs =>
  "\"" ++ (escapeJson k ++ ("\":" ++ (strVal ind lvl v ++
    ("," ++ strObjC ind lvl (kv :: kvs)))))

/-- Object entries, pretty mode, one per line at the given level. -/
def strObjP (ind : String) (lvl : Nat) : List (String × JsonVal) → String
| [] => ""
| [(k, v)] =>
  repeatStr ind lvl ++ ("\"" ++ (escapeJson k ++ ("\": " ++ strVal ind lvl v)))
| (k, v) :: kv :: kvs =>
  repeatStr ind lvl ++ ("\"" ++ (escapeJson k ++ ("\": " ++ (strVal ind lvl v ++
    (",\n" ++ strObjP ind lvl (kv :: kvs))))))

end

/-- `serializeNotebook` / `serialize` (source lines 77–106): the built
JSON object rendered with the resolved indentation unit. -/
def serializeNotebook (c : Collaborators α) (data : NotebookData α) : String :=
  strVal (resolveIndent data) 0 (serializeJson c data)

/-- A concrete `JSON.parse` restricted to the inputs used by the concrete
witnesses and counterexamples below; on each handled string it returns
exactly what `JSON.parse` returns on it. -/
def testParse : String → Option JsonVal := fun s =>
  if s = "\x7b\x7d" then some (.obj [])
  else if s = "\x7b\"cells\":5\x7d" then some (.obj [("cells", .num 5)])
  else if s = "\x7b\"cells\":[]\x7d" then some (.obj [("cells", .arr [])])
  else if s = "\x7b\"cells\":[\x7b\"a\":1\x7d],\"nbformat\":4,\"nbformat_minor\":2\x7d" then
    some (.obj [("cells", .arr [.obj [("a", .num 1)]]),
                ("nbformat", .num 4), ("nbformat_minor", .num 2)])
  else if s = "\x7b\"cells\":[\x7b\"a\":1\x7d],\"nbformat\":4\x7d" then
    some (.obj [("cells", .arr [.obj [("a", .num 1)]]), ("nbformat", .num 4)])
  else if s = "\x7b\n    \"cells\": []\n\x7d" then some (.obj [("cells", .arr [])])
  else none

/-- The elements of an array value (used by the concrete cell converter). -/
def jsElems : JsonVal → List JsonVal
| .arr xs => xs
| _ => []

/-- A concrete collaborator bundle over `JsonVal` cells: identity per-cell
converters, a constant language, one-space indent detection, and the given
fresh identifier for this call. -/
def testCollab (u : String) : Collaborators JsonVal where
  parseJson := testParse
  detectIndent := fun _ => " "
  uuid := u
  telemetry := fun _ => .ok ()
  getPreferredLanguage := fun _ => "python"
  notebookModelToVSCNotebookData := fun _ cells _ _ =>
    { cells := jsElems cells, metadata := [] }
  createJupyterCellFromVSCNotebookCell := fun x => x
  pruneCell := fun x => x

/-- A collaborator bundle whose raw telemetry callback always throws. -/
def failTelCollab : Collaborators JsonVal :=
  { testCollab "u" with telemetry := fun _ => .error () }

/-- The model produced by the C7 witness decode below. -/
def c7model : NotebookData JsonVal :=
  ⟨[blankCell], [("indentAmount", .str " "), ("__vsc_id", .str "u")]⟩

/-- The model produced by the C1 witness decode below. -/
def c1wmodel : NotebookData JsonVal :=
  ⟨[.obj [("a", .num 1)]],
   [("indentAmount", .str " "), ("__vsc_id", .str "u"), ("nbformat", .num 4)]⟩

/-- The collaborator bundle of the C9 witness: `detect-indent` reports a
4-space unit on the 4-space-indented witness file. -/
def testCollab4 : Collaborators JsonVal :=
  { testCollab "u" with detectIndent := fun _ => "    " }

/-- The model produced by the C9 witness decode below. -/
def c9model : NotebookData JsonVal :=
  ⟨[blankCell], [("indentAmount", .str "    "), ("__vsc_id", .str "u")]⟩

theorem sendTel_ok (cb : JsonVal → Except Unit Unit) (j : JsonVal) :
    sendLanguageTelemetry cb j = .ok () := by
  unfold sendLanguageTelemetry
  cases cb j <;> rfl

theorem lookup_setKey_self (m : List (String × JsonVal)) (k : String) (v : JsonVal) :
    List.lookup k (setKey m k v) = some v := by
  induction m with
  | nil => simp [setKey, List.lookup]
  | cons kv rest ih =>
    obtain ⟨k₀, v₀⟩ := kv
    by_cases h : k₀ = k
    · simp [setKey, h, List.lookup]
    · have hbeq : (k == k₀) = false := by simp [Ne.symm h]
      simp [setKey, h, List.lookup, hbeq, ih]

theorem lookup_setKey_ne (m : List (String × JsonVal)) (k k' : String) (v : JsonVal)
    (h : k ≠ k') : List.lookup k (setKey m k' v) = List.lookup k m := by
  have hbeq : (k == k') = false := by simp [h]
  induction m with
  | nil => simp [setKey, List.lookup, hbeq]
  | cons kv rest ih =>
    obtain ⟨k₀, v₀⟩ := kv
    by_cases h₀ : k₀ = k'
    · subst h₀
      simp [setKey, List.lookup, hbeq]
    · simp [setKey, h₀, List.lookup, ih]

theorem setKey_setKey (m : List (String × JsonVal)) (k : String) (v w : JsonVal) :
    setKey (setKey m k v) k w = setKey m k w := by
  induction m with
  | nil => simp [setKey]
  | cons kv rest ih =>
    obtain ⟨k₀, v₀⟩ := kv
    by_cases h : k₀ = k
    · simp [setKey, h]
    · simp [setKey, h, ih]

theorem decode_main (c : Collaborators α) (contents : String) (json : Option JsonVal)
    (hdj : decodeJson c contents = .ok json) (hsc : takesShortCircuit json = false) :
    decode c contents = .ok (decodeMain c contents json) := by
  simp only [decode, hdj, hsc, Bool.false_eq_true, if_false]
  cases json with
  | none => rfl
  | some j => simp only [sendTel_ok]

theorem decode_short (c : Collaborators α) (contents : String) (json : Option JsonVal)
    (hdj : decodeJson c contents = .ok json) (hsc : takesShortCircuit json = true) :
    decode c contents = .ok { cells := [], metadata := [] } := by
  simp only [decode, hdj, hsc, if_true]

theorem decode_ok (c : Collaborators α) (contents : String) (json : Option JsonVal)
    (hdj : decodeJson c contents = .ok json) :
    (decode c contents).toOption.isSome = true := by
  cases hsc : takesShortCircuit json with
  | true => rw [decode_short c contents json hdj hsc]; rfl
  | false => rw [decode_main c contents json hdj hsc]; rfl

/-- C2. If the metadata given to encode contains an `nbformat_minor` key,
its value is written into the output's `nbformat` field. -/
theorem c2_nbformat_minor_written_to_nbformat (α : Type) (c : Collaborators α)
    (d : NotebookData α) (v : JsonVal)
    (h : List.lookup "nbformat_minor" d.metadata = some v) :
    jsGet (serializeJson c d) "nbformat" = some v := by
  simp [serializeJson, jsGet, List.lookup, h]

/-- Witness for C2: source metadata with `nbformat_minor = 5` and no
`nbformat` encodes to an output whose `nbformat` field is `5`. -/
theorem c2_witness :
    jsGet (serializeJson (testCollab "u")
      ⟨[], [("nbformat_minor", JsonVal.num 5)]⟩) "nbformat"
      = some (JsonVal.num 5) :=
  c2_nbformat_minor_written_to_nbformat JsonVal (testCollab "u")
    ⟨[], [("nbformat_minor", JsonVal.num 5)]⟩ (JsonVal.num 5) rfl

/-- C10. The output's `nbformat_minor` field is the constant `2`,
whatever the input model's metadata contains. -/
theorem c10_nbformat_minor_always_two (α : Type) (c : Collaborators α)
    (d : NotebookData α) :
    jsGet (serializeJson c d) "nbformat_minor" = some (JsonVal.num 2) := rfl

/-- C4 counterexample: a metadata key `foo` that is none of the recognized
round-trip keys is NOT passed through into the encoded output's metadata
mapping — the output metadata is exactly `\x7b orig_nbformat: 4 \x7d` and
contains no `foo`. -/
theorem c4_counterexample :
    jsGet (serializeJson (testCollab "u") ⟨[], [("foo", JsonVal.num 1)]⟩)
        "metadata" = some (.obj [("orig_nbformat", JsonVal.num 4)])
    ∧ List.lookup "foo" [("orig_nbformat", JsonVal.num 4)] = none :=
  ⟨rfl, rfl⟩

/-- C4 amended: encode passes NO metadata keys through; the output's
metadata mapping is always exactly `\x7b orig_nbformat: 4 \x7d`. -/
theorem c4_metadata_never_passed_through (α : Type) (c : Collaborators α)
    (d : NotebookData α) :
    jsGet (serializeJson c d) "metadata"
      = some (.obj [("orig_nbformat", JsonVal.num 4)]) := rfl

theorem lookup_md_indent (c : Collaborators α) (contents : String)
    (json : Option JsonVal) :
    List.lookup "indentAmount" (decodeMain c contents json).metadata
      = some (.str (if contents = "" then " " else c.detectIndent contents)) := by
  unfold decodeMain
  simp only []
  split
  · split
    · rw [lookup_setKey_ne _ _ _ _ (by decide)]
      split
      · split
        · rw [lookup_setKey_ne _ _ _ _ (by decide),
              lookup_setKey_ne _ _ _ _ (by decide), lookup_setKey_self]
        · rw [lookup_setKey_ne _ _ _ _ (by decide), lookup_setKey_self]
      · rw [lookup_setKey_ne _ _ _ _ (by decide), lookup_setKey_self]
    · split
      · split
        · rw [lookup_setKey_ne _ _ _ _ (by decide),
              lookup_setKey_ne _ _ _ _ (by decide), lookup_setKey_self]
        · rw [lookup_setKey_ne _ _ _ _ (by decide), lookup_setKey_self]
      · rw [lookup_setKey_ne _ _ _ _ (by decide), lookup_setKey_self]
  · split
    · split
      · rw [lookup_setKey_ne _ _ _ _ (by decide),
            lookup_setKey_ne _ _ _ _ (by decide), lookup_setKey_self]
      · rw [lookup_setKey_ne _ _ _ _ (by decide), lookup_setKey_self]
    · rw [lookup_setKey_ne _ _ _ _ (by decide), lookup_setKey_self]

theorem lookup_md_id (c : Collaborators α) (contents : String)
    (json : Option JsonVal) :
    List.lookup "__vsc_id" (decodeMain c contents json).metadata
      = some (.str c.uuid) := by
  unfold decodeMain
  simp only []
  split
  · split
    · rw [lookup_setKey_ne _ _ _ _ (by decide)]
      split
      · split
        · rw [lookup_setKey_ne _ _ _ _ (by decide), lookup_setKey_self]
        · rw [lookup_setKey_self]
      · rw [lookup_setKey_self]
    · split
      · split
        · rw [lookup_setKey_ne _ _ _ _ (by decide), lookup_setKey_self]
        · rw [lookup_setKey_self]
      · rw [lookup_setKey_self]
  · split
    · split
      · rw [lookup_setKey_ne _ _ _ _ (by decide), lookup_setKey_self]
      · rw [lookup_setKey_self]
    · rw [lookup_setKey_self]

/-- C3 counterexample: on JSON lacking a `cells` field the short-circuit
returns the bare empty model: two decode calls with distinct freshly
generated identifiers give identical results whose metadata carries no
`__vsc_id` at all. -/
theorem c3_counterexample :
    decode (testCollab "a") "\x7b\x7d" = .ok ⟨[], []⟩
    ∧ decode (testCollab "b") "\x7b\x7d" = .ok ⟨[], []⟩
    ∧ List.lookup "__vsc_id" ([] : List (String × JsonVal)) = none :=
  ⟨rfl, rfl, rfl⟩

/-- C3 amended: every model produced by decode OUTSIDE the
missing/falsy-`cells` short-circuit carries in `__vsc_id` the identifier
freshly generated for that call (so distinct generated identifiers give
distinct stored identifiers); the short-circuit path returns an empty
model with no identifier. -/
theorem c3_fresh_id_amended (α : Type) (c : Collaborators α)
    (contents : String) (json : Option JsonVal) (d : NotebookData α)
    (hdj : decodeJson c contents = .ok json)
    (hsc : takesShortCircuit json = false)
    (hd : decode c contents = .ok d) :
    List.lookup "__vsc_id" d.metadata = some (.str c.uuid) := by
  rw [decode_main c contents json hdj hsc] at hd
  cases hd
  exact lookup_md_id c contents json

/-- Witness for C3 (amended): decoding `"\x7b\"cells\":[]\x7d"` with fresh
identifier `id-a` stores exactly `id-a` in the model's metadata. -/
theorem c3_witness :
    decode (testCollab "id-a") "\x7b\"cells\":[]\x7d"
      = .ok ⟨[blankCell], [("indentAmount", .str " "), ("__vsc_id", .str "id-a")]⟩
    ∧ List.lookup "__vsc_id"
        [("indentAmount", JsonVal.str " "), ("__vsc_id", JsonVal.str "id-a")]
      = some (.str "id-a") :=
  ⟨rfl, c3_fresh_id_amended JsonVal (testCollab "id-a") "\x7b\"cells\":[]\x7d"
    (some (.obj [("cells", .arr [])]))
    ⟨[blankCell], [("indentAmount", .str " "), ("__vsc_id", .str "id-a")]⟩
    rfl rfl rfl⟩

/-- C5 counterexample: a `cells` field that is present but a (truthy)
non-sequence — here the number 5 — does NOT take the missing-cells
short-circuit: the result differs from the short-circuit's bare empty
model (its metadata got the indent and fresh-identifier overlays, and the
non-sequence value was handed on to the cell converter). -/
theorem c5_counterexample :
    decode (testCollab "u") "\x7b\"cells\":5\x7d"
      = .ok ⟨[], [("indentAmount", .str " "), ("__vsc_id", .str "u")]⟩
    ∧ decode (testCollab "u") "\x7b\x7d" = .ok ⟨[], []⟩
    ∧ List.lookup "__vsc_id"
        [("indentAmount", JsonVal.str " "), ("__vsc_id", JsonVal.str "u")]
      = some (.str "u") :=
  ⟨rfl, rfl, rfl⟩

/-- C5 amended: decode returns the short-circuit's bare empty model
exactly when the content is non-empty and parses to a truthy value whose
`cells` read is falsy or absent; a parse to a falsy value (such as JSON
`null`) or a truthy non-sequence `cells` value does not short-circuit and
instead flows through the main path (whose metadata always carries the
overlays). -/
theorem c5_short_circuit_amended (α : Type) (c : Collaborators α)
    (contents : String) :
    decode c contents = .ok ⟨[], []⟩
      ↔ contents ≠ "" ∧ ∃ j, c.parseJson contents = some j ∧ j.truthy = true
          ∧ jsTruthyOpt (jsGet j "cells") = false := by
  constructor
  · intro h
    by_cases hc : contents = ""
    · exfalso
      have hdj : decodeJson c contents = .ok none := by simp [decodeJson, hc]
      rw [decode_main c contents none hdj rfl] at h
      have hm := lookup_md_indent c contents none
      injection h with h'
      rw [h'] at hm
      simp [List.lookup] at hm
    · cases hp : c.parseJson contents with
      | none =>
        exfalso
        have hdj : decodeJson c contents = .error () := by simp [decodeJson, hc, hp]
        have hde : decode c contents = .error () := by simp [decode, hdj]
        rw [hde] at h
        exact Except.noConfusion h
      | some j =>
        have hdj : decodeJson c contents = .ok (some j) := by
          simp [decodeJson, hc, hp]
        cases hsc : takesShortCircuit (some j) with
        | false =>
          exfalso
          rw [decode_main c contents (some j) hdj hsc] at h
          have hm := lookup_md_indent c contents (some j)
          injection h with h'
          rw [h'] at hm
          simp [List.lookup] at hm
        | true =>
          rw [takesShortCircuit] at hsc
          obtain ⟨h₁, h₂⟩ := Bool.and_eq_true_iff.mp hsc
          simp only [Option.some_bind, Bool.not_eq_eq_eq_not, Bool.not_true] at h₂
          exact ⟨hc, j, rfl, h₁, h₂⟩
  · rintro ⟨hc, j, hp, ht, hcf⟩
    have hdj : decodeJson c contents = .ok (some j) := by simp [decodeJson, hc, hp]
    have hsc : takesShortCircuit (some j) = true := by
      rw [takesShortCircuit]
      rw [show (some j).bind (fun j => jsGet j "cells") = jsGet j "cells" from rfl,
          hcf]
      simp [jsTruthyOpt, ht]
    exact decode_short c contents (some j) hdj hsc

/-- C6. When the raw telemetry callback can only fail, decode still
completes normally on every input it would otherwise accept, and its
result never depends on the callback at all: the failure is absorbed
inside `sendLanguageTelemetry` before it can reach decode's caller. -/
theorem c6_telemetry_swallowed (α : Type) (c : Collaborators α)
    (contents : String)
    (h : contents = "" ∨ (c.parseJson contents).isSome = true) :
    (decode c contents).toOption.isSome = true
    ∧ ∀ t, decode { c with telemetry := t } contents = decode c contents := by
  constructor
  · rcases h with hc | hp
    · exact decode_ok c contents none (by simp [decodeJson, hc])
    · by_cases hc : contents = ""
      · exact decode_ok c contents none (by simp [decodeJson, hc])
      · obtain ⟨j, hj⟩ := Option.isSome_iff_exists.mp hp
        exact decode_ok c contents (some j) (by simp [decodeJson, hc, hj])
  · intro t
    simp only [decode, sendTel_ok]
    rfl

/-- Witness for C6: with an always-throwing telemetry callback, decoding
`"\x7b\"cells\":5\x7d"` (where the callback IS invoked) still succeeds. -/
theorem c6_witness :
    ("\x7b\"cells\":5\x7d" = "" ∨
      (failTelCollab.parseJson "\x7b\"cells\":5\x7d").isSome = true)
    ∧ (decode failTelCollab "\x7b\"cells\":5\x7d").toOption.isSome = true :=
  ⟨Or.inr rfl,
   (c6_telemetry_swallowed JsonVal failTelCollab "\x7b\"cells\":5\x7d"
     (Or.inr rfl)).1⟩

/-- C8. Decode fails (with the propagated `MalformedInputError`) exactly
when the content is non-empty and `JSON.parse` fails on it; on empty
content no parse is attempted (the result does not depend on the parser)
and decode succeeds. -/
theorem c8_error_exactly_on_unparseable (α : Type) (c : Collaborators α)
    (contents : String) :
    (decode c contents = .error ()
      ↔ contents ≠ "" ∧ c.parseJson contents = none)
    ∧ (∀ p₁ p₂ : String → Option JsonVal,
        decode { c with parseJson := p₁ } ""
          = decode { c with parseJson := p₂ } "")
    ∧ (decode c "").toOption.isSome = true := by
  refine ⟨⟨?_, ?_⟩, ?_, ?_⟩
  · intro h
    by_cases hc : contents = ""
    · exfalso
      have := decode_ok c contents none (by simp [decodeJson, hc])
      rw [h] at this
      simp [Except.toOption] at this
    · cases hp : c.parseJson contents with
      | none => exact ⟨hc, rfl⟩
      | some j =>
        exfalso
        have := decode_ok c contents (some j) (by simp [decodeJson, hc, hp])
        rw [h] at this
        simp [Except.toOption] at this
  · rintro ⟨hc, hp⟩
    have hdj : decodeJson c contents = .error () := by simp [decodeJson, hc, hp]
    simp [decode, hdj]
  · intro p₁ p₂
    rfl
  · exact decode_ok c "" none (by simp [decodeJson])

/-- C7. On a parsed document whose `cells` array is present and empty,
decode hands the cell converter exactly one synthesized blank code cell
(`blankCell`: type code, null execution count, empty metadata, empty
outputs, empty source), so a converter producing one model cell per
stored cell yields a model with exactly one cell. -/
theorem c7_blank_cell_substitution (α : Type) (c : Collaborators α)
    (contents : String) (kvs : List (String × JsonVal)) (d : NotebookData α)
    (hc : contents ≠ "")
    (hp : c.parseJson contents = some (.obj kvs))
    (hcells : List.lookup "cells" kvs = some (.arr []))
    (hcount : ∀ a cl l b,
      (c.notebookModelToVSCNotebookData a (.arr cl) l b).cells.length
        = cl.length)
    (hd : decode c contents = .ok d) :
    d.cells = (c.notebookModelToVSCNotebookData
        (.obj (setKey kvs "cells" (.arr [])))
        (.arr [blankCell])
        (c.getPreferredLanguage (List.lookup "metadata" kvs))
        (.obj (setKey kvs "cells" (.arr [blankCell])))).cells
    ∧ d.cells.length = 1 := by
  have hdj : decodeJson c contents = .ok (some (.obj kvs)) := by
    simp [decodeJson, hc, hp]
  have hsc : takesShortCircuit (some (.obj kvs)) = false := by
    rw [takesShortCircuit]
    rw [show (some (JsonVal.obj kvs)).bind (fun j => jsGet j "cells")
          = List.lookup "cells" kvs from rfl, hcells]
    simp [jsTruthyOpt, JsonVal.truthy]
  rw [decode_main c contents (some (.obj kvs)) hdj hsc] at hd
  injection hd with hd'
  subst hd'
  rw [decodeMain]
  simp [Option.some_bind, jsGet, hcells, jsLength, jsSet, lookup_setKey_self,
    jsOrEmptyArr, jsOrEmptyObj, spreadWithCellsEmptied, setKey_setKey,
    JsonVal.truthy, hcount]

/-- Witness for C7: decoding `"\x7b\"cells\":[]\x7d"` with the concrete
collaborators produces exactly one cell, the blank code cell. -/
theorem c7_witness :
    decode (testCollab "u") "\x7b\"cells\":[]\x7d" = .ok c7model
    ∧ c7model.cells = [blankCell] ∧ c7model.cells.length = 1 :=
  ⟨rfl, rfl,
   (c7_blank_cell_substitution JsonVal (testCollab "u") "\x7b\"cells\":[]\x7d"
     [("cells", JsonVal.arr [])] c7model (by decide) rfl rfl
     (fun a cl l b => by simp [testCollab, jsElems]) rfl).2⟩

theorem map_eq_self_of_mem (l : List JsonVal) (f : JsonVal → JsonVal)
    (h : ∀ x ∈ l, f x = x) : l.map f = l := by
  induction l with
  | nil => rfl
  | cons x xs ih =>
    simp only [List.map_cons, h x (by simp)]
    rw [ih (fun y hy => h y (by simp [hy]))]

theorem serializeJson_nbformat_of_minor (c : Collaborators α)
    (dd : NotebookData α) (v : JsonVal)
    (h : List.lookup "nbformat_minor" dd.metadata = some v) :
    jsGet (serializeJson c dd) "nbformat" = some v := by
  simp [serializeJson, jsGet, List.lookup, h]

theorem serializeJson_nbformat_of_nb (c : Collaborators α)
    (dd : NotebookData α) (v : JsonVal)
    (hminor : List.lookup "nbformat_minor" dd.metadata = none)
    (hnb : List.lookup "nbformat" dd.metadata = some v) :
    jsGet (serializeJson c dd) "nbformat" = some v := by
  simp [serializeJson, jsGet, List.lookup, hminor, hnb]

theorem decodeMain_cells_nonempty (c : Collaborators α) (contents : String)
    (kvs : List (String × JsonVal)) (cs : List JsonVal)
    (hcells : List.lookup "cells" kvs = some (.arr cs)) (hne : cs ≠ []) :
    decodeMain c contents (some (.obj kvs)) =
      (let data := c.notebookModelToVSCNotebookData
        (spreadWithCellsEmptied (some (.obj kvs))) (.arr cs)
        (c.getPreferredLanguage (List.lookup "metadata" kvs)) (.obj kvs)
      let md := setKey (setKey data.metadata "indentAmount"
          (.str (if contents = "" then " " else c.detectIndent contents)))
        "__vsc_id" (.str c.uuid)
      let md := match List.lookup "nbformat" kvs with
        | some v => if v.truthy then setKey md "nbformat" v else md
        | none => md
      let md := match List.lookup "nbformat_minor" kvs with
        | some v => if v.truthy then setKey md "nbformat_minor" v else md
        | none => md
      { cells := data.cells, metadata := md }) := by
  rw [decodeMain]
  have hl : ¬ (cs.length = 0) := fun h => hne (List.length_eq_zero.mp h)
  simp [Option.some_bind, jsGet, hcells, jsLength, hl, jsOrEmptyArr,
    jsOrEmptyObj, JsonVal.truthy]

/-- C1 counterexample: a valid one-cell notebook carrying both
`nbformat = 4` and `nbformat_minor = 2` decodes and re-encodes (with
mutually inverse per-cell converters) to an output whose top-level
`nbformat` is `2` — the input's `nbformat_minor`, NOT its `nbformat`. -/
theorem c1_counterexample :
    testParse "\x7b\"cells\":[\x7b\"a\":1\x7d],\"nbformat\":4,\"nbformat_minor\":2\x7d"
      = some (.obj [("cells", .arr [.obj [("a", .num 1)]]),
                    ("nbformat", .num 4), ("nbformat_minor", .num 2)])
    ∧ decode (testCollab "u")
        "\x7b\"cells\":[\x7b\"a\":1\x7d],\"nbformat\":4,\"nbformat_minor\":2\x7d"
      = .ok ⟨[.obj [("a", .num 1)]],
             [("indentAmount", .str " "), ("__vsc_id", .str "u"),
              ("nbformat", .num 4), ("nbformat_minor", .num 2)]⟩
    ∧ jsGet (serializeJson (testCollab "u")
        ⟨[.obj [("a", .num 1)]],
         [("indentAmount", .str " "), ("__vsc_id", .str "u"),
          ("nbformat", .num 4), ("nbformat_minor", .num 2)]⟩) "nbformat"
      = some (.num 2)
    ∧ (2 : Int) ≠ 4 :=
  ⟨rfl, rfl, rfl, by decide⟩

/-- C1 amended: for valid StoredNotebook JSON with at least one cell,
decode-then-encode preserves the cell count and per-cell content when
the per-cell converters are mutual inverses; the output `nbformat` equals
the input's (truthy) `nbformat` whenever the input carried no
`nbformat_minor`, and equals the input's (truthy) `nbformat_minor`
whenever it carried one. -/
theorem c1_roundtrip_amended (α : Type) (c : Collaborators α)
    (contents : String) (kvs : List (String × JsonVal)) (cs : List JsonVal)
    (d2m : JsonVal → α) (d : NotebookData α)
    (hc : contents ≠ "")
    (hp : c.parseJson contents = some (.obj kvs))
    (hcells : List.lookup "cells" kvs = some (.arr cs))
    (hne : cs ≠ [])
    (hconv : ∀ a cl l b,
      (c.notebookModelToVSCNotebookData a (.arr cl) l b).cells = cl.map d2m)
    (hinv : ∀ x ∈ cs,
      c.pruneCell (c.createJupyterCellFromVSCNotebookCell (d2m x)) = x)
    (hframe : ∀ a cl l b, List.lookup "nbformat_minor"
      (c.notebookModelToVSCNotebookData a cl l b).metadata = none)
    (hd : decode c contents = .ok d) :
    jsGet (serializeJson c d) "cells" = some (.arr cs)
    ∧ (∀ v, List.lookup "nbformat" kvs = some v → v.truthy = true →
        List.lookup "nbformat_minor" kvs = none →
        jsGet (serializeJson c d) "nbformat" = some v)
    ∧ (∀ v, List.lookup "nbformat_minor" kvs = some v → v.truthy = true →
        jsGet (serializeJson c d) "nbformat" = some v) := by
  have hdj : decodeJson c contents = .ok (some (.obj kvs)) := by
    simp [decodeJson, hc, hp]
  have hsc : takesShortCircuit (some (.obj kvs)) = false := by
    rw [takesShortCircuit]
    rw [show (some (JsonVal.obj kvs)).bind (fun j => jsGet j "cells")
          = List.lookup "cells" kvs from rfl, hcells]
    simp [jsTruthyOpt, JsonVal.truthy]
  rw [decode_main c contents (some (.obj kvs)) hdj hsc,
      decodeMain_cells_nonempty c contents kvs cs hcells hne] at hd
  injection hd with hd'
  subst hd'
  refine ⟨?_, ?_, ?_⟩
  · simp only [serializeJson, jsGet, List.lookup, hconv, List.map_map]
    rw [show ((BEq.beq "cells" "cells" : Bool)) = true from rfl]
    simp only []
    rw [map_eq_self_of_mem cs
      (c.pruneCell ∘ c.createJupyterCellFromVSCNotebookCell ∘ d2m)
      (fun x hx => hinv x hx)]
  · intro v hv hvt hnm
    simp only [hv, hvt, hnm, if_true]
    apply serializeJson_nbformat_of_nb
    · rw [lookup_setKey_ne _ _ _ _ (by decide),
          lookup_setKey_ne _ _ _ _ (by decide),
          lookup_setKey_ne _ _ _ _ (by decide)]
      exact hframe _ _ _ _
    · exact lookup_setKey_self _ _ _
  · intro v hv hvt
    simp only [hv, hvt, if_true]
    apply serializeJson_nbformat_of_minor
    exact lookup_setKey_self _ _ _

/-- Witness for C1 (amended): a one-cell notebook with `nbformat = 4` and
no `nbformat_minor` round-trips its cell list and its `nbformat`. -/
theorem c1_witness :
    jsGet (serializeJson (testCollab "u") c1wmodel) "cells"
      = some (.arr [.obj [("a", .num 1)]])
    ∧ jsGet (serializeJson (testCollab "u") c1wmodel) "nbformat"
      = some (.num 4) := by
  have h := c1_roundtrip_amended JsonVal (testCollab "u")
    "\x7b\"cells\":[\x7b\"a\":1\x7d],\"nbformat\":4\x7d"
    [("cells", .arr [.obj [("a", .num 1)]]), ("nbformat", .num 4)]
    [.obj [("a", .num 1)]] (fun x => x) c1wmodel
    (by decide) rfl rfl (List.cons_ne_nil _ _)
    (fun a cl l b => by simp [testCollab, jsElems])
    (fun x hx => rfl) (fun a cl l b => rfl) rfl
  exact ⟨h.1, h.2.1 (.num 4) rfl rfl rfl⟩

theorem strVal_obj_head (ind : String) (hind : ¬ ind = "") (k : String)
    (v : JsonVal) (e : String × JsonVal) (kvs : List (String × JsonVal)) :
    (strVal ind 0 (.obj ((k, v) :: e :: kvs))).data
      = ("\x7b\n" ++ (ind ++ ("\"" ++ (escapeJson k ++ "\": ")))).data
        ++ (strVal ind 1 v ++ (",\n" ++ (strObjP ind 1 (e :: kvs)
            ++ ("\n" ++ (repeatStr ind 0 ++ "\x7d"))))).data := by
  simp only [strVal, strObjP, if_neg hind]
  simp [String.data_append, repeatStr, List.append_assoc,
    show ("" : String).data = ([] : List Char) from rfl]

/-- C9. On the main decode path the detected indentation unit is recorded
verbatim in the model metadata, the next write pretty-prints with exactly
that unit, a detected 4-space unit reappears as 4-space indentation in
the output bytes, and a model whose metadata has no string `indentAmount`
is written with the single-space default. -/
theorem c9_indent_round_trip (α : Type) (c : Collaborators α)
    (contents : String) (j : JsonVal) (d : NotebookData α)
    (hdj : decodeJson c contents = .ok (some j))
    (hsc : takesShortCircuit (some j) = false)
    (hd : decode c contents = .ok d) :
    List.lookup "indentAmount" d.metadata
      = some (.str (c.detectIndent contents))
    ∧ serializeNotebook c d
      = strVal (c.detectIndent contents) 0 (serializeJson c d)
    ∧ (c.detectIndent contents = "    " →
        ∃ rest : List Char,
          (serializeNotebook c d).data = "\x7b\n    \"cells\": ".data ++ rest)
    ∧ (∀ d' : NotebookData α,
        (∀ s, List.lookup "indentAmount" d'.metadata ≠ some (.str s)) →
        serializeNotebook c d' = strVal " " 0 (serializeJson c d')) := by
  have hc : contents ≠ "" := by
    intro h
    rw [h] at hdj
    simp [decodeJson] at hdj
  rw [decode_main c contents (some j) hdj hsc] at hd
  injection hd with hd'
  subst hd'
  have hind := lookup_md_indent c contents (some j)
  rw [if_neg hc] at hind
  have hres : resolveIndent (decodeMain c contents (some j))
      = c.detectIndent contents := by
    rw [resolveIndent, hind]
  refine ⟨hind, ?_, ?_, ?_⟩
  · rw [serializeNotebook, hres]
  · intro h4
    rw [serializeNotebook, hres, h4]
    obtain ⟨V, E, R, hS⟩ : ∃ V E R,
        serializeJson c (decodeMain c contents (some j))
          = JsonVal.obj (("cells", V) :: E :: R) := ⟨_, _, _, rfl⟩
    rw [hS, strVal_obj_head "    " (by decide) "cells" V E R]
    exact ⟨_, rfl⟩
  · intro d' h'
    have hr : resolveIndent d' = " " := by
      rw [resolveIndent]
      split
      · next s heq => exact absurd heq (h' s)
      · rfl
    rw [serializeNotebook, hr]

/-- Witness for C9: decoding a 4-space-indented file records the 4-space
unit in the model metadata. -/
theorem c9_witness :
    decode testCollab4 "\x7b\n    \"cells\": []\n\x7d" = .ok c9model
    ∧ List.lookup "indentAmount" c9model.metadata = some (.str "    ") :=
  ⟨rfl,
   (c9_indent_round_trip JsonVal testCollab4 "\x7b\n    \"cells\": []\n\x7d"
     (.obj [("cells", .arr [])]) c9model rfl rfl rfl).1⟩

end VSCJupyter
